import Mathlib

/-!
Verification development for the ESG Engine vector-index core.

The Python source is shallowly embedded: machine floats are modelled as
exact rationals, FAISS FlatL2 indexes as lists of vectors, Python dicts as
structures, raised exceptions as `Except.error`, and the external NLP and
embedding collaborators (sentence-transformers, spaCy, regex search) as
explicit oracle parameters, matching the contract view of the design
documents.  All definitions follow the corresponding Python functions
statement by statement.
-/

/-! ## Basic helpers -/

/-- Characterwise test that `needle` starts `hay` (Python list slicing view). -/
def startsWithChars : List Char → List Char → Bool
  | [], _ => true
  | _ :: _, [] => false
  | a :: as, b :: bs => a = b && startsWithChars as bs

/-- Characterwise contiguous-substring test, the Python `in` operator on strings. -/
def containsChars (needle : List Char) : List Char → Bool
  | [] => startsWithChars needle []
  | b :: bs => startsWithChars needle (b :: bs) || containsChars needle bs

/-- Python `needle in hay` on strings. -/
def strIn (needle hay : String) : Bool :=
  containsChars needle.data hay.data

/-- ASCII whitespace, for Python `str.strip` and `str.split`. -/
def isWS (c : Char) : Bool := c = ' ' || c = '\t' || c = '\n' || c = '\r'

/-- Python `str.strip()` (charwise, so that terms evaluate). -/
def strTrim (s : String) : String :=
  String.mk (((s.data.dropWhile isWS).reverse.dropWhile isWS).reverse)

/-- Python `str.lower()` (charwise, so that terms evaluate). -/
def strLower (s : String) : String := String.mk (s.data.map Char.toLower)

/-- Helper of `splitSpace`. -/
def splitAux (sep : Char) : List Char → List Char → List String
  | [], cur => [String.mk cur.reverse]
  | c :: cs, cur =>
    if c = sep then String.mk cur.reverse :: splitAux sep cs []
    else splitAux sep cs (c :: cur)

/-- Python `str.split()` for space-separated strings. -/
def splitSpace (s : String) : List String := splitAux ' ' s.data []

/-- Python floor division `a // b` on rationals for positive `b`
(`Int.fdiv` is integer floor division). -/
def ratFloorDiv (a b : Rat) : Int :=
  Int.fdiv (a.num * (b.den : Int)) ((a.den : Int) * b.num)

/-- Python list indexing `xs[i]`: a negative index counts from the end. -/
def pyGet {α : Type} (xs : List α) (i : Int) : Option α :=
  let j : Int := if 0 ≤ i then i else (xs.length : Int) + i
  if 0 ≤ j then xs.get? j.toNat else none

/-! ## FAISS FlatL2 model (`faiss.IndexFlatL2`)

A flat L2 index is the list of stored vectors in insertion order.  `search`
returns the `k` smallest squared L2 distances in ascending order; when the
index holds fewer than `k` vectors FAISS pads the result with id `-1` and
distance `FLT_MAX`. -/

/-- The value of C `FLT_MAX`, the distance FAISS reports for padded slots. -/
def floatMax : Rat := 340282346638528859811704183484516925440

structure FaissIndex where
  dim : Nat
  vectors : List (List Rat)
  deriving DecidableEq

/-- Squared L2 distance between two vectors (componentwise on the common length). -/
def sqDist : List Rat → List Rat → Rat
  | [], _ => 0
  | _, [] => 0
  | a :: as, b :: bs => (a - b) * (a - b) + sqDist as bs

/-- Insert one scored id into a distance-sorted list, keeping the sort stable
(equal distances keep insertion order, matching id order for FlatL2). -/
def insertByDist (x : Int × Rat) : List (Int × Rat) → List (Int × Rat)
  | [] => [x]
  | y :: ys => if x.2 < y.2 then x :: y :: ys else y :: insertByDist x ys

/-- Stable sort of scored ids by ascending distance. -/
def sortByDist : List (Int × Rat) → List (Int × Rat)
  | [] => []
  | x :: xs => insertByDist x (sortByDist xs)

/-- Model of `index.search(query, k)` for one query vector: ascending distances,
padded to length `k` with `(-1, FLT_MAX)` when the index is smaller than `k`. -/
def faissSearch (idx : FaissIndex) (q : List Rat) (k : Nat) : List (Int × Rat) :=
  let scored := idx.vectors.enum.map (fun p => ((p.1 : Int), sqDist p.2 q))
  let top := (sortByDist scored).take k
  top ++ List.replicate (k - top.length) ((-1 : Int), floatMax)

/-! ## `utils/vector_utils.py` -/

/-- One metadata record of the sidecar (`metadata.pkl` entry). -/
structure Meta where
  document_name : String
  page_number : Int
  sentence_index : Int
  sentence : String
  deriving DecidableEq

/-- A search hit as returned by `search_index`: the copied metadata record
with the reported distance added. -/
structure SearchResult where
  meta : Meta
  distance : Rat
  deriving DecidableEq

/-- The two persisted stores of one index plus the in-memory index:
`index.faiss` on disk, `metadata.pkl` on disk, and the live FAISS object. -/
structure IndexState where
  index : FaissIndex
  diskIndex : FaissIndex
  diskMetadata : List Meta
  deriving DecidableEq

/-- Model of `add_to_index(index, embeddings, metadata, metadata_path, index_path)`.
The function performs no length comparison between `embeddings` and
`metadata`; FAISS itself raises when a vector has the wrong dimension
(before mutating the index).  On success the index is appended to and
written to disk, and the metadata file is overwritten with exactly the
`metadata` argument (`pickle.dump(metadata, f)`). -/
def add_to_index (st : IndexState) (embeddings : List (List Rat))
    (metadata : List Meta) : Except String IndexState :=
  if embeddings.all (fun v => v.length = st.index.dim) then
    let idx : FaissIndex := ⟨st.index.dim, st.index.vectors ++ embeddings⟩
    .ok ⟨idx, idx, metadata⟩
  else
    .error "add: vector dimension does not match index dimension"

/-- Model of `search_index(index, query_embedding, metadata_path, k)`: FAISS search,
then for each returned id keep it when `idx < len(metadata)` (the guard in
the source; note `-1 < len(metadata)` holds whenever the metadata list is
nonempty) and look up `metadata[idx]` with Python indexing semantics. -/
def search_index (index : FaissIndex) (metadata : List Meta)
    (query : List Rat) (k : Nat) : List SearchResult :=
  (faissSearch index query k).filterMap fun hit =>
    if hit.1 < (metadata.length : Int) then
      (pyGet metadata hit.1).map (fun m => ⟨m, hit.2⟩)
    else none

/-! ## `rag/standards_rag/indexer.py` -/

/-- One embedded sentence of a PDF, the output unit of `tokenize_and_embed`. -/
structure UnitRes where
  embedding : List Rat
  page_number : Int
  sentence_index : Int
  sentence : String
  deriving DecidableEq

/-- One source PDF, reduced to the units `tokenize_and_embed` yields for it
(the external extraction and embedding collaborators are opaque). -/
structure PdfFile where
  name : String
  results : List UnitRes
  deriving DecidableEq

/-- The metadata records `index_standards` builds for one file. -/
def metaOf (f : PdfFile) : List Meta :=
  f.results.map fun r => ⟨f.name, r.page_number, r.sentence_index, r.sentence⟩

/-- One iteration of the `index_standards` loop: files with no extracted
units are skipped, otherwise `add_to_index` runs and the accumulated
`all_metadata` list is extended; a raised exception skips the file. -/
def indexStep (acc : IndexState × List Meta) (f : PdfFile) : IndexState × List Meta :=
  if f.results.isEmpty then acc
  else
    match add_to_index acc.1 (f.results.map (fun r => r.embedding)) (metaOf f) with
    | .error _ => acc
    | .ok st => (st, acc.2 ++ metaOf f)

/-- Model of `index_standards()`: create a fresh empty index and write it to disk
(`initialize_index`), leaving whatever metadata file a previous run left
in place (`prior`); process every file through `indexStep`; finally, when
any metadata accumulated, overwrite the metadata file with the whole
accumulated list. -/
def index_standards_run (dim : Nat) (prior : List Meta) (files : List PdfFile) :
    IndexState :=
  let st0 : IndexState := ⟨⟨dim, []⟩, ⟨dim, []⟩, prior⟩
  let r := files.foldl indexStep (st0, [])
  if r.2.isEmpty then r.1 else { r.1 with diskMetadata := r.2 }

/-! ## `rag/standards_rag/searcher.py` -/

/-- The on-disk situation and external collaborators `search_standards` sees:
whether `index.faiss` and `metadata.pkl` exist, whether reading the index
file raises (corrupt data), the stored index and metadata, and the query
embedder (`tokenize_and_embed`, `none` when it yields no result). -/
structure StandardsEnv where
  indexExists : Bool
  metadataExists : Bool
  indexCorrupt : Bool
  index : FaissIndex
  metadata : List Meta
  embed : String → Option (List Rat)

/-- Model of `search_standards(query, document_filter, k)`: a missing index or
metadata file returns `[]`; a query that embeds to nothing returns `[]`;
reading a corrupt index file raises (there is no try/except here, so the
error propagates); otherwise `search_index` results, filtered by document
name when a filter is given. -/
def search_standards (env : StandardsEnv) (query : String)
    (docFilter : Option String) (k : Nat) : Except String (List SearchResult) :=
  if env.indexExists = false ∨ env.metadataExists = false then .ok []
  else
    match env.embed query with
    | none => .ok []
    | some qv =>
      if env.indexCorrupt then .error "read_index: could not parse index file"
      else
        let rs := search_index env.index env.metadata qv k
        .ok (match docFilter with
          | some d => rs.filter (fun r => decide (r.meta.document_name = d))
          | none => rs)

/-! ## `rag/reports_rag/searcher.py` -/

/-- A report match with the context sentences `search_report` attaches. -/
structure RepMatch where
  meta : Meta
  distance : Rat
  before : Option String
  after : Option String
  deriving DecidableEq

/-- One per-criterion result of the reports searcher; `qmatches` is the
`matches` entry of the source dictionary (`matches` is reserved in Lean). -/
structure QueryResult where
  criterion : String
  qmatches : List RepMatch
  deriving DecidableEq

/-- Environment of `search_report`: file existence, the resource check,
whether loading the persisted state raises, the stored index and metadata,
and the query embedder. -/
structure ReportsEnv where
  indexExists : Bool
  metadataExists : Bool
  resourcesOk : Bool
  loadFails : Bool
  index : FaissIndex
  metadata : List Meta
  embed : String → Option (List Rat)

/-- Model of `get_context(metadata, idx)`: the sentences just before and after
`metadata[idx]`, kept only when they lie on the same page. -/
def get_context (metadata : List Meta) (idx : Nat) : Option String × Option String :=
  match metadata.get? idx with
  | none => (none, none)
  | some cur =>
    let before :=
      if idx > 0 then
        match metadata.get? (idx - 1) with
        | some prev => if prev.page_number = cur.page_number then some prev.sentence else none
        | none => none
      else none
    let after :=
      match metadata.get? (idx + 1) with
      | some nxt => if nxt.page_number = cur.page_number then some nxt.sentence else none
      | none => none
    (before, after)

/-- Attach context to raw `search_index` hits: find the first metadata
position with the same sentence index and page, then `get_context`. -/
def addContext (metadata : List Meta) (rs : List SearchResult) : List RepMatch :=
  rs.map fun r =>
    let idxs := (metadata.enum.filter (fun p =>
      decide (p.2.sentence_index = r.meta.sentence_index ∧
              p.2.page_number = r.meta.page_number))).map (fun p => p.1)
    match idxs with
    | [] => ⟨r.meta, r.distance, none, none⟩
    | i :: _ =>
      let ba := get_context metadata i
      ⟨r.meta, r.distance, ba.1, ba.2⟩

/-- Model of `search_report(criteria, k)`: missing files or a failed resource check
return `[]`; a raised load error propagates; otherwise one `QueryResult`
per criterion, in order (the thread pool collects every submitted future). -/
def search_report (env : ReportsEnv) (criteria : List String) (k : Nat) :
    Except String (List QueryResult) :=
  if env.indexExists = false ∨ env.metadataExists = false then .ok []
  else if env.resourcesOk = false then .ok []
  else if env.loadFails then .error "read_index: could not load reports index"
  else
    .ok (criteria.map fun c =>
      match env.embed c with
      | none => ⟨c, []⟩
      | some qv => ⟨c, addContext env.metadata (search_index env.index env.metadata qv k)⟩)

/-! ## `agents/extraction/searcher.py` (the plain implementation) -/

/-- Model of `extract_data(report_path, criterion)`: call `search_report([criterion], 5)`;
an empty result list or any raised exception yields an explicit
empty-matches result; otherwise the first returned `QueryResult`. -/
def extract_data (env : ReportsEnv) (_report_path criterion : String) : QueryResult :=
  match search_report env [criterion] 5 with
  | .error _ => ⟨criterion, []⟩
  | .ok [] => ⟨criterion, []⟩
  | .ok (r :: _) => r

/-! ## Resource monitoring (`utils/resource_monitor.py`,
`agents/monitoring/resource_monitor.py`) -/

/-- Result dictionary of `monitor_resources`. -/
structure MonitorInfo where
  compliant : Bool
  max_sub_agents : Nat
  deriving DecidableEq

/-- Model of `check_resources(is_server=False)` with the local limits of
`config/settings.py`: RAM at most 45 percent and disk at most 45 percent. -/
def check_resources (ramPct diskPct : Rat) : Bool :=
  decide (ramPct ≤ 45) && decide (diskPct ≤ 45)

/-- The cap `min(int(available_memory // 0.5), 10)`: half a gigabyte assumed per
sub-agent, capped at ten. -/
def maxSubAgents (availGB : Rat) : Nat :=
  min (Int.toNat (ratFloorDiv availGB (mkRat 1 2))) 10

/-- Model of `monitor_resources()`: the compliance flag from `check_resources` plus
the advised sub-agent cap from available memory (in gigabytes). -/
def monitor_resources (availGB ramPct diskPct : Rat) : MonitorInfo :=
  ⟨check_resources ramPct diskPct, maxSubAgents availGB⟩

/-! ## `agents/extraction/concurrent.py` (the plain implementation) -/

/-- Model of `concurrent_extract(report_path, criteria)`: when the resource check is
non-compliant it logs and returns `[]`; otherwise it builds a
`ThreadPoolExecutor(max_workers=max_sub_agents)` — which raises `ValueError`
when the worker count is zero — and collects one `extract_data` result per
criterion. -/
def concurrent_extract (availGB ramPct diskPct : Rat) (env : ReportsEnv)
    (report_path : String) (criteria : List String) :
    Except String (List QueryResult) :=
  let info := monitor_resources availGB ramPct diskPct
  if info.compliant = false then .ok []
  else if info.max_sub_agents = 0 then .error "max_workers must be greater than 0"
  else .ok (criteria.map (extract_data env report_path))

/-! ## The o1 variant of resource monitoring and dispatch
(`o1/utils/resource_monitor.py`, `o1/agents/monitoring/resource_monitor.py`,
`o1/agents/extraction/concurrent.py`) -/

/-- The o1 `check_resources`: limits hard-coded to 80 percent, and the
returned dictionary also carries a fixed `max_sub_agents` of four. -/
def o1_check_resources (ramPct diskPct : Rat) : MonitorInfo :=
  ⟨decide (ramPct ≤ 80) && decide (diskPct ≤ 80), 4⟩

/-- Result of the o1 `monitor_resources`: the `compliant` slot holds the
whole dictionary returned by the o1 `check_resources` (the source stores
it unchanged), and `max_sub_agents` is recomputed from available memory. -/
structure O1MonitorInfo where
  usage_check : MonitorInfo
  max_sub_agents : Nat
  deriving DecidableEq

/-- The o1 `monitor_resources()`. -/
def o1_monitor_resources (availGB ramPct diskPct : Rat) : O1MonitorInfo :=
  ⟨o1_check_resources ramPct diskPct, maxSubAgents availGB⟩

/-- The o1 `concurrent_extract`: it never consults the compliance flag; it
directly builds `ThreadPoolExecutor(max_workers=max_sub_agents)` — raising
`ValueError` when the worker count is zero — and maps the per-criterion
search over the criteria. -/
def o1_concurrent_extract {α : Type} (info : O1MonitorInfo)
    (search : String → α) (criteria : List String) : Except String (List α) :=
  if info.max_sub_agents = 0 then .error "max_workers must be greater than 0"
  else .ok (criteria.map search)

/-! ## NLP oracles

The sentence-transformer model, spaCy tokenizer/parser and regex engine are
external collaborators; they enter the embedding as opaque deterministic
functions, exactly as the design treats the embedding model. -/

/-- External NLP collaborators: cosine similarity of two embedded texts,
the noun/verb/adjective token texts of a text, all token texts of a text,
and the noun/verb/adjective children of the tokens of a text. -/
structure NlpOracle where
  cosSim : String → String → Rat
  posTokens : String → List String
  allTokens : String → List String
  childTokens : String → List String

/-- Cardinality of `set(a).intersection(set(b))` for token lists. -/
def interCount (a b : List String) : Nat :=
  (a.dedup.filter (fun t => decide (t ∈ b))).length

/-- The count `sum(1 for term in related_terms if term in sentence_lower)` over a set
of related terms. -/
def termCount (terms : List String) (s : String) : Nat :=
  (terms.dedup.filter (fun t => strIn t s)).length

/-- Expansion of tokens through the shared `SYNONYMS` table: every token
found as a key or inside a synonym list contributes the key and all its
synonyms. -/
def synExpand (syn : List (String × List String)) (tokens : List String) :
    List String :=
  tokens.flatMap fun t =>
    syn.flatMap fun ks => if t = ks.1 ∨ t ∈ ks.2 then ks.1 :: ks.2 else []

/-! ## `o1/agents/extraction/searcher.py` -/

/-- A match record produced by the o1 `extract_data`. -/
structure ExtMatch where
  criterion : String
  value : String
  source : String
  page_number : Int
  similarity : Rat
  deriving DecidableEq

/-- A hit returned by the reports RAG inside the o1 `extract_data`. -/
structure RagHit where
  sentence : String
  document_name : String
  page_number : Int
  deriving DecidableEq

/-- The page loop of the o1 `extract_data` (steps 2 and 3 share it, with the
criterion or the description as needle).  `regexVal` is the regex oracle:
the value captured by the pattern `needle ... number unit` inside the page
text, when it matches.  A page containing the needle verbatim whose regex
also captures a value appends a similarity-1 match and returns from the
whole function (flag `true`); otherwise the page falls through to combined
scoring and is appended — with its raw cosine similarity as score — as soon
as the similarity beats the threshold 0.6, or at least one
noun/verb/adjective token is shared, or any related term occurs in the
page. -/
def pageScan (o : NlpOracle) (regexVal : String → String → Option String)
    (needleLower : String) (needleTokens relatedTerms : List String)
    (criterion report_path : String) (defValue : Int → String)
    (acc : List ExtMatch) : List (Int × String) → Bool × List ExtMatch
  | [] => (false, acc)
  | (pn, text) :: rest =>
    let tl := strLower text
    let rv := regexVal needleLower tl
    if strIn needleLower tl ∧ rv.isSome then
      (true, acc ++ [⟨criterion, rv.getD "", report_path, pn, 1⟩])
    else
      let similarity := o.cosSim needleLower text
      let docTokens := o.posTokens text
      if mkRat 3 5 < similarity ∨ 1 ≤ interCount needleTokens docTokens ∨
          relatedTerms.any (fun t => strIn t tl) then
        pageScan o regexVal needleLower needleTokens relatedTerms criterion
          report_path defValue
          (acc ++ [⟨criterion, rv.getD (defValue pn), report_path, pn, similarity⟩]) rest
      else
        pageScan o regexVal needleLower needleTokens relatedTerms criterion
          report_path defValue acc rest

/-- The o1 `extract_data(report_path, criterion, description, page_texts)`.
Step 1: when the reports RAG returns hits, every hit becomes a match with
similarity 1.0 and the function returns.  Step 2: the page loop with the
criterion as needle.  Step 3: when a description is given and step 2 found
nothing, the page loop again with the description as needle. -/
def o1_extract_data (o : NlpOracle) (syn : List (String × List String))
    (regexVal : String → String → Option String)
    (report_path criterion : String) (description : Option String)
    (ragResults : List RagHit) (pageTexts : List (Int × String)) :
    String × List ExtMatch :=
  if ragResults.isEmpty = false then
    (criterion, ragResults.map fun r =>
      ⟨criterion, r.sentence, r.document_name, r.page_number, 1⟩)
  else
    let cl := strLower criterion
    let criterionTokens := o.posTokens cl
    let relatedTerms := synExpand syn (o.allTokens cl) ++ o.childTokens cl
    match pageScan o regexVal cl criterionTokens relatedTerms criterion
        report_path (fun pn => "Found " ++ criterion ++ " in page " ++ toString pn)
        [] pageTexts with
    | (true, ms) => (criterion, ms)
    | (false, ms) =>
      match description with
      | none => (criterion, ms)
      | some d =>
        if ms.isEmpty then
          let dl := strLower d
          let descTokens := o.posTokens dl
          let relatedTerms2 := synExpand syn (o.allTokens dl) ++ o.childTokens dl
          (criterion, (pageScan o regexVal dl descTokens relatedTerms2 criterion
            report_path (fun pn => "Found description in page " ++ toString pn)
            [] pageTexts).2)
        else (criterion, ms)

/-! ## `o1/agents/evaluation/validator.py`, the standards-cache block

Step 3b of `validate_data` walks the precomputed standards cache.  Inside
its try block the similarity line reads
`util.cos_sim(criterion_embedding, sentence_embedding).index()`:
a torch tensor has no zero-argument `index` method, so this call raises on
every entry and the `except` clause logs and skips the entry.  The model
keeps the statements after that line (they mirror the source) behind the
raising call. -/

/-- An entry of the precomputed standards cache. -/
structure CacheEntry where
  filename : String
  sentence : String
  page_number : Int
  deriving DecidableEq

/-- A standard match produced by `validate_data`. -/
structure StdMatch where
  standard : String
  page_number : Int
  text : String
  similarity : Rat
  deriving DecidableEq

/-- The call `tensor.index()` on the 1x1 cosine-similarity tensor: torch
tensors do not support a zero-argument `index` call, so it raises. -/
def tensorIndexCall (_x : Rat) : Except String Rat :=
  .error "Tensor.index is not callable without arguments"

/-- The related-terms set of `validate_data`: the words of the lowered
criterion, plus the synonym expansion of its tokens, plus the
noun/verb/adjective children of its tokens. -/
def relTermsValidator (o : NlpOracle) (syn : List (String × List String))
    (criterionLower : String) : List String :=
  splitSpace criterionLower ++ synExpand syn (o.allTokens criterionLower) ++
    o.childTokens criterionLower

/-- Processing of one standards-cache entry inside step 3b of
`validate_data`: the filter and validity pre-checks, then the try block.
The try block computes the similarity through `tensorIndexCall` (the
`.index()` call of the source); an exact substring hit of the criterion or
its description would score 1.0, and otherwise the combined score
`max(similarity, (token_overlap + term_matches) * 0.15)` is kept when the
similarity beats the 0.25 threshold or any overlap or term hit exists.  An
exception anywhere in the try block drops the entry. -/
def cacheEntryMatch (o : NlpOracle) (criterionLower criterionDescription : String)
    (criterionTokens relatedTerms : List String) (filt : Option String)
    (entry : CacheEntry) : Option StdMatch :=
  if (match filt with
      | some f => decide (entry.filename ≠ f)
      | none => false) then none
  else
    let sentence := strTrim entry.sentence
    if sentence = "" then none
    else if decide (entry.page_number ≤ 0) then none
    else
      let sl := strLower sentence
      let tryBody : Except String (Option StdMatch) := do
        let similarity ← tensorIndexCall (o.cosSim criterionLower sl)
        let sentenceTokens := o.posTokens sl
        if strIn criterionLower sl ∨
            (criterionDescription ≠ "" ∧ strIn (strLower criterionDescription) sl) then
          pure (some ⟨entry.filename, entry.page_number, sentence, 1⟩)
        else
          let overlap := interCount criterionTokens sentenceTokens
          let terms := termCount relatedTerms sl
          if mkRat 1 4 < similarity ∨ 1 ≤ overlap ∨ 1 ≤ terms then
            pure (some ⟨entry.filename, entry.page_number, sentence,
              max similarity (((overlap + terms : Nat) : Rat) * mkRat 3 20)⟩)
          else
            pure none
      match tryBody with
      | .error _ => none
      | .ok r => r

/-- Step 3b of `validate_data` over the whole standards cache. -/
def validate_standards_cache (o : NlpOracle) (syn : List (String × List String))
    (filt : Option String) (criterion criterionDescription : String)
    (cache : List CacheEntry) : List StdMatch :=
  let cl := strLower criterion
  let criterionTokens := o.posTokens cl
  let relatedTerms := relTermsValidator o syn cl
  cache.filterMap
    (cacheEntryMatch o cl criterionDescription criterionTokens relatedTerms filt)

/-! ## `o2/esg_system/build_database.py` -/

/-- The ChromaDB client state plus the hash-cache directory: stored
collections with their entry counts, and the cached content hash per
collection name. -/
structure ChromaDB where
  collections : List (String × Nat)
  hashCache : List (String × String)
  deriving DecidableEq

/-- First value stored under a key in an association list (the first match
wins, as for the single cache file per collection name). -/
def lookupStr (l : List (String × String)) (k : String) : Option String :=
  (l.find? (fun p => decide (p.1 = k))).map (fun p => p.2)

/-- Whether a collection of this name exists. -/
def hasCollection (db : ChromaDB) (name : String) : Bool :=
  db.collections.any (fun p => decide (p.1 = name))

/-- The collection name, the literal tag `esg_standards_` followed by the
extension-free base name of the path; source paths are modelled by their
extension-free base names. -/
def collectionName (pdf : String) : String := "esg_standards_" ++ pdf

/-- Model of `check_existing_collection(pdf_path, collection_name)`: true exactly
when the collection exists and a cached hash exists and equals the current
content hash of the file. -/
def check_existing_collection (db : ChromaDB) (hash : String → String)
    (pdf name : String) : Bool :=
  hasCollection db name &&
    (match lookupStr db.hashCache name with
     | some h => decide (h = hash pdf)
     | none => false)

/-- Model of `embed_sections`: `get_or_create_collection` then `collection.add` on
every batch, so `n` entries land on top of whatever the collection already
holds (a fresh collection starts at zero). -/
def addEntries (db : ChromaDB) (name : String) (n : Nat) : ChromaDB :=
  if hasCollection db name then
    { db with collections :=
        db.collections.map (fun p => if p.1 = name then (p.1, p.2 + n) else p) }
  else
    { db with collections := db.collections ++ [(name, n)] }

/-- Model of `cache_file_hash`: overwrite the cache file of this collection name
with the current content hash. -/
def setHash (db : ChromaDB) (name h : String) : ChromaDB :=
  { db with hashCache :=
      (db.hashCache.filter (fun p => decide (p.1 ≠ name))) ++ [(name, h)] }

/-- Accumulator of one `initialize_database` run: the database, the number
of entries embedded during this run, and the keys of the per-run
`collections` dictionary. -/
structure BuildAcc where
  db : ChromaDB
  added : Nat
  names : List String
  deriving DecidableEq

/-- One iteration of the `initialize_database` loop: a fingerprint hit
reuses the collection; a source yielding zero paragraphs is skipped with a
warning; otherwise the paragraphs are embedded and stored and the content
hash is cached.  `extractN pdf` is the number of paragraphs
`split_standards_pdf` yields for the source. -/
def buildStep (hash : String → String) (extractN : String → Nat)
    (acc : BuildAcc) (pdf : String) : BuildAcc :=
  let name := collectionName pdf
  if check_existing_collection acc.db hash pdf name then
    { acc with names := acc.names ++ [pdf] }
  else
    let n := extractN pdf
    if n = 0 then acc
    else
      { db := setHash (addEntries acc.db name n) name (hash pdf),
        added := acc.added + n,
        names := acc.names ++ [pdf] }

/-- The collection loop of `initialize_database` over all standards paths,
starting from the persisted database of previous runs. -/
def buildFold (hash : String → String) (extractN : String → Nat)
    (paths : List String) (db : ChromaDB) : BuildAcc :=
  paths.foldl (buildStep hash extractN) ⟨db, 0, []⟩

/-- Model of `initialize_database()`: after the loop, an empty per-run collections
dictionary raises `ValueError`. -/
def initialize_database_run (hash : String → String) (extractN : String → Nat)
    (paths : List String) (db : ChromaDB) : Except String BuildAcc :=
  let acc := buildFold hash extractN paths db
  if acc.names.isEmpty then .error "No standards files successfully processed"
  else .ok acc

/-! ## Concrete fixtures used by witnesses and counterexamples -/

/-- A metadata record fixture. -/
def mA : Meta := ⟨"doc.pdf", 1, 0, "alpha"⟩

/-- An empty one-dimensional index state. -/
def st0 : IndexState := ⟨⟨1, []⟩, ⟨1, []⟩, []⟩

/-- A one-sentence PDF fixture. -/
def fA : PdfFile := ⟨"a.pdf", [⟨[0], 1, 0, "s1"⟩]⟩

/-- A second one-sentence PDF fixture. -/
def fB : PdfFile := ⟨"b.pdf", [⟨[1], 1, 0, "s2"⟩]⟩

/-! ## Claims about the index write path -/

/-- Claim C1 (counterexample).  The claim states that after each `add` the
number of vectors stored in the index equals the number of entries in the
persisted metadata sidecar.  Running the `index_standards` loop over two
one-sentence PDFs refutes it: after the second add the persisted index
holds two vectors while the persisted sidecar holds exactly one record,
because `add_to_index` overwrites `metadata.pkl` with only the batch it
was handed. -/
theorem C1_sidecar_count_mismatch_cex :
    (indexStep (indexStep (st0, []) fA) fB).1.diskIndex.vectors.length = 2 ∧
    (indexStep (indexStep (st0, []) fA) fB).1.diskMetadata.length = 1 := by
  constructor <;> rfl

/-- Claim C1 (amended).  An accepted `add` appends the vectors to the index
and persists it, but replaces the persisted sidecar with exactly the batch
records: the two persisted stores have equal counts after the add exactly
when the batch record count equals the previous vector count plus the
batch vector count (so only, for instance, the first batch into a fresh
index).  Equality is restored only by the final whole-run metadata dump of
`index_standards`. -/
theorem C1_add_replaces_sidecar (st : IndexState) (e : List (List Rat))
    (m : List Meta) (h : e.all (fun v => v.length = st.index.dim) = true) :
    ∃ st2, add_to_index st e m = .ok st2 ∧
      st2.diskIndex.vectors = st.index.vectors ++ e ∧
      st2.diskMetadata = m ∧
      (st2.diskIndex.vectors.length = st2.diskMetadata.length ↔
        st.index.vectors.length + e.length = m.length) := by
  refine ⟨⟨⟨st.index.dim, st.index.vectors ++ e⟩, ⟨st.index.dim, st.index.vectors ++ e⟩, m⟩,
    ?_, rfl, rfl, ?_⟩
  · unfold add_to_index
    rw [h]
    rfl
  · simp

/-- Claim C1 (witness for the amended theorem), at a batch of one vector
into the empty index with a one-record sidecar. -/
theorem C1_add_replaces_sidecar_witness :
    (([[(0 : Rat)]] : List (List Rat)).all (fun v => v.length = st0.index.dim) = true) ∧
    (∃ st2, add_to_index st0 [[(0 : Rat)]] [mA] = .ok st2 ∧
      st2.diskIndex.vectors = st0.index.vectors ++ [[(0 : Rat)]] ∧
      st2.diskMetadata = [mA] ∧
      (st2.diskIndex.vectors.length = st2.diskMetadata.length ↔
        st0.index.vectors.length + [[(0 : Rat)]].length = [mA].length)) :=
  ⟨by decide, C1_add_replaces_sidecar st0 [[(0 : Rat)]] [mA] (by decide)⟩

/-- Claim C3 (counterexample).  The claim states that an `add` with
`len(vectors) != len(records)` fails and writes nothing.  Calling
`add_to_index` on the empty index with one vector and zero records
succeeds and persists one vector next to an empty sidecar. -/
theorem C3_mismatched_add_succeeds_cex :
    add_to_index st0 [[(0 : Rat)]] [] = .ok ⟨⟨1, [[0]]⟩, ⟨1, [[0]]⟩, []⟩ ∧
    (⟨⟨1, [[(0 : Rat)]]⟩, ⟨1, [[0]]⟩, ([] : List Meta)⟩ : IndexState).diskIndex.vectors.length ≠
      (⟨⟨1, [[(0 : Rat)]]⟩, ⟨1, [[0]]⟩, ([] : List Meta)⟩ : IndexState).diskMetadata.length := by
  constructor
  · rfl
  · decide

/-- Claim C3 (amended).  `add_to_index` checks no record count at all: a
call whose vectors match the index dimension succeeds even when the vector
and record counts differ, appending the vectors and replacing the persisted
sidecar with the given records; only a wrong vector dimension makes the
call fail. -/
theorem C3_no_length_precondition (st : IndexState) (e : List (List Rat))
    (m : List Meta) (hdim : e.all (fun v => v.length = st.index.dim) = true)
    (hlen : e.length ≠ m.length) :
    ∃ st2, add_to_index st e m = .ok st2 ∧
      st2.diskIndex.vectors = st.index.vectors ++ e ∧
      st2.diskMetadata = m ∧
      st.index.vectors.length + st2.diskMetadata.length ≠
        st.index.vectors.length + e.length := by
  refine ⟨⟨⟨st.index.dim, st.index.vectors ++ e⟩, ⟨st.index.dim, st.index.vectors ++ e⟩, m⟩,
    ?_, rfl, rfl, ?_⟩
  · unfold add_to_index
    rw [hdim]
    rfl
  · simpa using fun hh => hlen hh.symm

/-- Claim C3 (witness for the amended theorem), with one vector and two
records. -/
theorem C3_no_length_precondition_witness :
    (([[(0 : Rat)]] : List (List Rat)).all (fun v => v.length = st0.index.dim) = true) ∧
    ([[(0 : Rat)]] : List (List Rat)).length ≠ ([mA, mA] : List Meta).length ∧
    (∃ st2, add_to_index st0 [[(0 : Rat)]] [mA, mA] = .ok st2 ∧
      st2.diskIndex.vectors = st0.index.vectors ++ [[(0 : Rat)]] ∧
      st2.diskMetadata = [mA, mA] ∧
      st0.index.vectors.length + st2.diskMetadata.length ≠
        st0.index.vectors.length + ([[(0 : Rat)]] : List (List Rat)).length) :=
  ⟨by decide, by decide,
    C3_no_length_precondition st0 [[(0 : Rat)]] [mA, mA] (by decide) (by decide)⟩

/-- Claim C2 (code bug, evaluation at the failing input).  An index holding
one vector searched with `k = 2` returns two results: the real neighbor and
a fabricated duplicate of the last metadata record carrying FAISS padding
distance `FLT_MAX`, because the guard `idx < len(metadata)` admits the
padding id `-1` and Python indexing wraps it to the last element.  The
empty-index case of the claim does hold: there `-1 < 0` fails, so the
result is empty. -/
theorem C2_padding_id_duplicates_last_entry :
    search_index ⟨1, [[0]]⟩ [mA] [0] 2 = [⟨mA, 0⟩, ⟨mA, floatMax⟩] ∧
    search_index ⟨1, []⟩ [] [0] 2 = [] := by
  have h0 : sqDist [(0 : Rat)] [0] = 0 := by simp [sqDist]
  have hf : faissSearch ⟨1, [[0]]⟩ [0] 2 = [((0 : Int), (0 : Rat)), ((-1 : Int), floatMax)] := by
    unfold faissSearch
    simp [List.enum, List.enumFrom, sortByDist, insertByDist, h0]
  constructor
  · unfold search_index
    rw [hf]
    decide
  · decide

/-! ## Claims about the relevance scorer -/

/-- A concrete NLP oracle: zero cosine similarity everywhere, whitespace
tokenization, no syntactic children. -/
def wsOracle : NlpOracle :=
  ⟨fun _ _ => 0, splitSpace, splitSpace, fun _ => []⟩

/-- A concrete NLP oracle with constant cosine similarity 0.7. -/
def simO : NlpOracle :=
  ⟨fun _ _ => mkRat 7 10, splitSpace, splitSpace, fun _ => []⟩

/-- Claim C4 (code bug, evaluation at the failing input).  A standards-cache
entry whose sentence contains the criterion verbatim (case-insensitively)
never receives the exact-match score 1.0: the similarity line of the
try block calls `.index()` on the cosine-similarity tensor, which raises on
every entry before the substring test runs, and the except clause drops the
entry, so the candidate is absent from the standard matches altogether. -/
theorem C4_exact_match_entry_dropped :
    strIn "emissions" (strLower (strTrim "Total emissions were 1,200 tCO2e")) = true ∧
    validate_standards_cache wsOracle [] none "emissions" ""
      [⟨"ifrs_s1.pdf", "Total emissions were 1,200 tCO2e", 1⟩] = [] := by
  constructor
  · decide
  · rfl

/-- Claim C5 (counterexample).  A page sharing one noun token with the
criterion but with cosine similarity 0 is returned by the o1 `extract_data`
as a match whose score 0 lies below the active threshold 0.6: the
threshold gates only the similarity disjunct, and the token-overlap
disjunct admits the candidate carrying its below-threshold score. -/
theorem C5_below_threshold_match_returned :
    (o1_extract_data wsOracle [] (fun _ _ => none) "rep.pdf" "carbon emissions"
        none [] [(1, "emissions rose")]).2 =
      [⟨"carbon emissions", "Found carbon emissions in page 1", "rep.pdf", 1, 0⟩] ∧
    (0 : Rat) < mkRat 3 5 := by
  constructor
  · rfl
  · decide

/-- Every match the page loop emits under empty weak signals (no token
overlap and no related-term hit on any page) carries score 1 from the
exact branch or a score strictly above the 0.6 threshold. -/
theorem pageScan_gating (o : NlpOracle) (regexVal : String → String → Option String)
    (nl : String) (nt rt : List String) (c rp : String) (dv : Int → String)
    (pts : List (Int × String)) :
    ∀ acc : List ExtMatch,
      (∀ m ∈ acc, m.similarity = 1 ∨ mkRat 3 5 < m.similarity) →
      (∀ p ∈ pts, interCount nt (o.posTokens p.2) = 0) →
      (∀ p ∈ pts, rt.any (fun t => strIn t (strLower p.2)) = false) →
      ∀ m ∈ (pageScan o regexVal nl nt rt c rp dv acc pts).2,
        m.similarity = 1 ∨ mkRat 3 5 < m.similarity := by
  induction pts with
  | nil =>
    intro acc hacc _ _
    simpa [pageScan] using hacc
  | cons p rest ih =>
    obtain ⟨pn, text⟩ := p
    intro acc hacc hTok hTerm
    have hT : interCount nt (o.posTokens text) = 0 :=
      hTok (pn, text) (List.mem_cons_self _ _)
    have hTm : rt.any (fun t => strIn t (strLower text)) = false :=
      hTerm (pn, text) (List.mem_cons_self _ _)
    have hTok2 : ∀ q ∈ rest, interCount nt (o.posTokens q.2) = 0 :=
      fun q hq => hTok q (List.mem_cons_of_mem _ hq)
    have hTerm2 : ∀ q ∈ rest, rt.any (fun t => strIn t (strLower q.2)) = false :=
      fun q hq => hTerm q (List.mem_cons_of_mem _ hq)
    simp only [pageScan]
    split
    · intro m hm
      simp only at hm
      rcases List.mem_append.mp hm with h | h
      · exact hacc m h
      · left
        rw [List.mem_singleton.mp h]
    · split
      · rename_i hcond
        refine ih _ ?_ hTok2 hTerm2
        intro m hm
        rcases List.mem_append.mp hm with h | h
        · exact hacc m h
        · right
          rw [List.mem_singleton.mp h]
          rcases hcond with h35 | hov | htm
          · exact h35
          · rw [hT] at hov
            exact absurd hov (by decide)
          · rw [hTm] at htm
            exact absurd htm (by simp)
      · exact ih acc hacc hTok2 hTerm2

/-- Claim C5 (amended).  Threshold gating holds only in the absence of the
weak signals: when no page shares a noun/verb/adjective token with the
criterion and no related term occurs in any page, every match returned by
the o1 `extract_data` carries the exact-branch score 1 or a score strictly
above the 0.6 threshold.  (A candidate with a token overlap or a
related-term hit can be returned with a score below the threshold, as the
counterexample shows.) -/
theorem C5_gating_holds_without_weak_signals (o : NlpOracle)
    (syn : List (String × List String)) (regexVal : String → String → Option String)
    (rp c : String) (pts : List (Int × String))
    (hTok : ∀ p ∈ pts, interCount (o.posTokens (strLower c)) (o.posTokens p.2) = 0)
    (hTerm : ∀ p ∈ pts,
      (synExpand syn (o.allTokens (strLower c)) ++ o.childTokens (strLower c)).any
        (fun t => strIn t (strLower p.2)) = false) :
    ∀ m ∈ (o1_extract_data o syn regexVal rp c none [] pts).2,
      m.similarity = 1 ∨ mkRat 3 5 < m.similarity := by
  have hg := pageScan_gating o regexVal (strLower c) (o.posTokens (strLower c))
    (synExpand syn (o.allTokens (strLower c)) ++ o.childTokens (strLower c)) c rp
    (fun pn => "Found " ++ c ++ " in page " ++ toString pn) pts []
    (by intro m hm; cases hm) hTok hTerm
  have heq : (o1_extract_data o syn regexVal rp c none [] pts).2 =
      (pageScan o regexVal (strLower c) (o.posTokens (strLower c))
        (synExpand syn (o.allTokens (strLower c)) ++ o.childTokens (strLower c)) c rp
        (fun pn => "Found " ++ c ++ " in page " ++ toString pn) [] pts).2 := by
    unfold o1_extract_data
    rcases hps : pageScan o regexVal (strLower c) (o.posTokens (strLower c))
        (synExpand syn (o.allTokens (strLower c)) ++ o.childTokens (strLower c)) c rp
        (fun pn => "Found " ++ c ++ " in page " ++ toString pn) [] pts with ⟨b, ms⟩
    cases b <;> simp [hps]
  intro m hm
  rw [heq] at hm
  exact hg m hm

/-- The match the witness run of the o1 `extract_data` returns. -/
def mW : ExtMatch := ⟨"water", "Found water in page 1", "rep.pdf", 1, mkRat 7 10⟩

/-- Claim C5 (witness for the amended theorem): a page with no weak-signal
hit and cosine similarity 0.7 yields exactly one match, whose score the
amended theorem places at 1 or above the threshold. -/
theorem C5_gating_holds_without_weak_signals_witness :
    (o1_extract_data simO [] (fun _ _ => none) "rep.pdf" "water" none []
      [(1, "air quality")]).2 = [mW] ∧
    (mW.similarity = 1 ∨ mkRat 3 5 < mW.similarity) :=
  ⟨by decide,
   C5_gating_holds_without_weak_signals simO [] (fun _ _ => none) "rep.pdf" "water"
     [(1, "air quality")] (by decide) (by decide) mW (by decide)⟩

/-! ## Claims about the concurrent dispatcher -/

/-- The criterion field of an `extract_data` result is always the queried
criterion, whichever branch produced the result. -/
theorem extract_data_criterion_eq (env : ReportsEnv) (rp c : String) :
    (extract_data env rp c).criterion = c := by
  unfold extract_data search_report
  by_cases h1 : env.indexExists = false ∨ env.metadataExists = false
  · simp [h1]
  · by_cases h2 : env.resourcesOk = false
    · simp [h1, h2]
    · by_cases h3 : env.loadFails = true
      · simp [h1, h2, h3]
      · simp [h1, h2, h3]
        cases env.embed c <;> simp

/-- A reports environment whose query embedder fails on every criterion:
an injected per-criterion internal failure. -/
def failEnv : ReportsEnv := ⟨true, true, true, false, ⟨1, []⟩, [], fun _ => none⟩

/-- Claim C6 (amended).  When the resource check passes AND the derived
worker count is nonzero (the claim as stated omits the second condition),
`concurrent_extract` over `N` distinct criteria returns exactly `N`
results, whose criterion fields are exactly the input criteria — each
unique and drawn from the input set — for every environment, so in
particular under injected per-criterion failures, which surface as
explicit empty-matches results. -/
theorem C6_dispatch_completeness (availGB ramPct diskPct : Rat) (env : ReportsEnv)
    (rp : String) (criteria : List String)
    (hc : (monitor_resources availGB ramPct diskPct).compliant = true)
    (hw : (monitor_resources availGB ramPct diskPct).max_sub_agents ≠ 0)
    (hnd : criteria.Nodup) :
    ∃ rs, concurrent_extract availGB ramPct diskPct env rp criteria = .ok rs ∧
      rs.length = criteria.length ∧
      rs.map (fun r => r.criterion) = criteria ∧
      (rs.map (fun r => r.criterion)).Nodup := by
  refine ⟨criteria.map (extract_data env rp), ?_, by simp, ?_, ?_⟩
  · unfold concurrent_extract
    simp [hc, hw]
  · rw [List.map_map]
    have : (fun r : QueryResult => r.criterion) ∘ extract_data env rp = id := by
      funext c
      exact extract_data_criterion_eq env rp c
    rw [this, List.map_id]
  · rw [List.map_map]
    have : (fun r : QueryResult => r.criterion) ∘ extract_data env rp = id := by
      funext c
      exact extract_data_criterion_eq env rp c
    rw [this, List.map_id]
    exact hnd

/-- Claim C6 (witness for the amended theorem): one gigabyte of headroom,
compliant usage, two distinct criteria, and an environment whose embedder
fails every query. -/
theorem C6_dispatch_completeness_witness :
    ((monitor_resources 1 40 40).compliant = true ∧
     (monitor_resources 1 40 40).max_sub_agents ≠ 0 ∧
     (["a", "b"] : List String).Nodup) ∧
    (∃ rs, concurrent_extract 1 40 40 failEnv "rep.pdf" ["a", "b"] = .ok rs ∧
      rs.length = (["a", "b"] : List String).length ∧
      rs.map (fun r => r.criterion) = ["a", "b"] ∧
      (rs.map (fun r => r.criterion)).Nodup) :=
  ⟨⟨by decide, by decide, by decide⟩,
   C6_dispatch_completeness 1 40 40 failEnv "rep.pdf" ["a", "b"]
     (by decide) (by decide) (by decide)⟩

/-- Claim C6 (counterexample).  With compliant resource usage but only
0.4 GB of available memory the derived worker count is zero; the
dispatcher then raises while building its pool instead of returning one
result per criterion, refuting the claim as stated (its only precondition
is that the resource check passes). -/
theorem C6_zero_worker_dispatch_cex :
    (monitor_resources (mkRat 2 5) 40 40).compliant = true ∧
    concurrent_extract (mkRat 2 5) 40 40 failEnv "rep.pdf" ["a", "b"] =
      .error "max_workers must be greater than 0" := by
  constructor
  · decide
  · rfl

/-- Claim C7 (amended).  When the sampled usage exceeds the configured
limit the dispatcher starts no searches and returns a plain empty list —
the same value a successful dispatch of an empty criteria list produces —
rather than signalling a distinguishable `ResourceExhausted` condition. -/
theorem C7_noncompliant_returns_plain_empty (availGB ramPct diskPct : Rat)
    (env : ReportsEnv) (rp : String) (criteria : List String)
    (h : (monitor_resources availGB ramPct diskPct).compliant = false) :
    concurrent_extract availGB ramPct diskPct env rp criteria = .ok [] := by
  unfold concurrent_extract
  simp [h]

/-- Claim C7 (witness for the amended theorem), at 50 percent RAM usage
against the 45 percent local limit. -/
theorem C7_noncompliant_returns_plain_empty_witness :
    (monitor_resources 1 50 40).compliant = false ∧
    concurrent_extract 1 50 40 failEnv "other.pdf" ["a", "b"] = .ok [] :=
  ⟨by decide,
   C7_noncompliant_returns_plain_empty 1 50 40 failEnv "other.pdf" ["a", "b"] (by decide)⟩

/-- Claim C7 (counterexample).  At 90 percent RAM usage the dispatcher
returns `Except.ok []` — the very value a successful dispatch of zero
criteria returns — so no `ResourceExhausted` condition distinguishable
from a successful empty result is signalled. -/
theorem C7_exhaustion_indistinguishable_cex :
    concurrent_extract 1 90 40 failEnv "rep.pdf" ["a"] = .ok [] ∧
    concurrent_extract 1 40 40 failEnv "rep.pdf" [] = .ok [] := by
  constructor <;> rfl

/-- Claim C10.  At 0.4 GB of available memory and 40 percent RAM and disk
usage, the o1 resource monitor derives `max_sub_agents = 0` while its
stored usage check reports compliance; the o1 dispatcher, which never
consults the compliance flag, then raises `ValueError` while constructing
a worker pool with zero workers instead of returning a result list. -/
theorem C10_zero_worker_pool_raises :
    (o1_monitor_resources (mkRat 2 5) 40 40).max_sub_agents = 0 ∧
    (o1_monitor_resources (mkRat 2 5) 40 40).usage_check.compliant = true ∧
    o1_concurrent_extract (o1_monitor_resources (mkRat 2 5) 40 40)
      (fun c => extract_data failEnv "rep.pdf" c) ["a"] =
      .error "max_workers must be greater than 0" := by
  refine ⟨by decide, by decide, rfl⟩

/-! ## Claims about loading persisted indexes -/

/-- A standards environment whose index file is missing. -/
def missingEnv : StandardsEnv := ⟨false, true, false, ⟨1, []⟩, [], fun _ => some [0]⟩

/-- A standards environment whose metadata file is missing. -/
def metaMissingEnv : StandardsEnv := ⟨true, false, false, ⟨1, []⟩, [], fun _ => some [0]⟩

/-- A standards environment whose index file exists but cannot be parsed. -/
def corruptEnv : StandardsEnv := ⟨true, true, true, ⟨1, []⟩, [], fun _ => some [0]⟩

/-- Claim C9 (counterexample).  Loading with a missing index file does not
propagate any failure: `search_standards` silently returns a successful
empty result, exactly what a legitimate empty search yields. -/
theorem C9_missing_index_silent_empty_cex :
    search_standards missingEnv "emissions" none 5 = .ok [] := rfl

/-- Claim C9 (amended).  A missing index or metadata file makes
`search_standards` silently return an empty list (masking the missing
store); only when both files exist and the index file cannot be parsed
does the load failure propagate to the caller as an error. -/
theorem C9_load_failure_behavior :
    (∀ (env : StandardsEnv) (q : String) (f : Option String) (k : Nat),
        env.indexExists = false ∨ env.metadataExists = false →
        search_standards env q f k = .ok []) ∧
    (∀ (env : StandardsEnv) (q : String) (f : Option String) (k : Nat)
        (qv : List Rat),
        env.indexExists = true → env.metadataExists = true →
        env.embed q = some qv → env.indexCorrupt = true →
        search_standards env q f k =
          .error "read_index: could not parse index file") := by
  constructor
  · intro env q f k h
    unfold search_standards
    rw [if_pos h]
  · intro env q f k qv h1 h2 he hc
    unfold search_standards
    rw [if_neg (by simp [h1, h2]), he]
    simp [hc]

/-- Claim C9 (witness for the amended theorem): one environment per
conjunct. -/
theorem C9_load_failure_behavior_witness :
    search_standards metaMissingEnv "q" none 5 = .ok [] ∧
    search_standards corruptEnv "q" none 5 =
      .error "read_index: could not parse index file" :=
  ⟨C9_load_failure_behavior.1 metaMissingEnv "q" none 5 (Or.inr rfl),
   C9_load_failure_behavior.2 corruptEnv "q" none 5 [0] rfl rfl rfl rfl⟩

/-! ## Claims about re-indexing -/

/-- A source the second run will skip or re-skip: either its fingerprint
check passes, or extraction yields zero paragraphs (then the step is a
no-op as well). -/
def fpOK (hash : String → String) (extractN : String → Nat) (db : ChromaDB)
    (pdf : String) : Prop :=
  check_existing_collection db hash pdf (collectionName pdf) = true ∨
    extractN pdf = 0

/-- The model collection name is injective on source names. -/
theorem collectionName_inj {a b : String} (h : collectionName a = collectionName b) :
    a = b := by
  unfold collectionName at h
  cases a with
  | mk la =>
    cases b with
    | mk lb =>
      have hd := congrArg String.data h
      rw [String.data_append, String.data_append] at hd
      have hl : la = lb := by
        simpa using List.append_cancel_left hd
      rw [hl]

/-- The helper `addEntries` never touches the hash cache. -/
theorem addEntries_hashCache (db : ChromaDB) (name : String) (n : Nat) :
    (addEntries db name n).hashCache = db.hashCache := by
  unfold addEntries
  split <;> rfl

/-- The helper `setHash` never touches the collections. -/
theorem setHash_collections (db : ChromaDB) (name h : String) :
    (setHash db name h).collections = db.collections := rfl

/-- A present collection stays present through `addEntries`. -/
theorem hasCollection_addEntries_mono (db : ChromaDB) (name : String) (n : Nat)
    (name0 : String) (h : hasCollection db name0 = true) :
    hasCollection (addEntries db name n) name0 = true := by
  unfold hasCollection at h ⊢
  rw [List.any_eq_true] at h
  obtain ⟨x, hx, hpx⟩ := h
  unfold addEntries
  split
  · rw [List.any_eq_true]
    refine ⟨if x.1 = name then (x.1, x.2 + n) else x, List.mem_map_of_mem _ hx, ?_⟩
    by_cases hxn : x.1 = name <;> simpa [hxn] using hpx
  · rw [List.any_eq_true]
    exact ⟨x, List.mem_append_left _ hx, hpx⟩

/-- Lemma: `find?` commutes with a filter that keeps every possible hit. -/
theorem find?_filter_of_imp {α : Type} (l : List α) (p q : α → Bool)
    (h : ∀ x, p x = true → q x = true) :
    (l.filter q).find? p = l.find? p := by
  induction l with
  | nil => rfl
  | cons x xs ih =>
    cases hq : q x
    · have hp : p x = false := by
        cases hpx : p x
        · rfl
        · rw [h x hpx] at hq
          cases hq
      simp [List.filter_cons, hq, List.find?_cons, hp, ih]
    · cases hpx : p x <;> simp [List.filter_cons, hq, List.find?_cons, hpx, ih]

/-- After `setHash db name h`, looking `name` up yields `h`. -/
theorem lookupStr_setHash_self (db : ChromaDB) (name h : String) :
    lookupStr (setHash db name h).hashCache name = some h := by
  unfold setHash lookupStr
  rw [List.find?_append]
  have hnone : (db.hashCache.filter (fun p => decide (p.1 ≠ name))).find?
      (fun p => decide (p.1 = name)) = none := by
    rw [List.find?_eq_none]
    intro x hx
    have hne := (List.mem_filter.mp hx).2
    simp only [decide_eq_true_eq] at hne ⊢
    exact hne
  rw [hnone]
  simp [List.find?_cons]

/-- After `setHash db name h`, looking up any other name is unchanged. -/
theorem lookupStr_setHash_other (db : ChromaDB) (name h name0 : String)
    (hne : name0 ≠ name) :
    lookupStr (setHash db name h).hashCache name0 = lookupStr db.hashCache name0 := by
  unfold setHash lookupStr
  rw [List.find?_append]
  rw [find?_filter_of_imp _ _ _ (by
    intro x hx
    simp only [decide_eq_true_eq] at hx ⊢
    rw [hx]
    exact hne)]
  have hsingle : ([(name, h)] : List (String × String)).find?
      (fun p => decide (p.1 = name0)) = none := by
    rw [List.find?_eq_none]
    intro x hx
    simp only [List.mem_singleton] at hx
    rw [hx]
    simp only [decide_eq_true_eq]
    exact fun hc => hne hc.symm
  rw [hsingle]
  cases db.hashCache.find? (fun p => decide (p.1 = name0)) <;> rfl

/-- A collection of this name exists right after `addEntries` for it. -/
theorem hasCollection_addEntries_self (db : ChromaDB) (name : String) (n : Nat) :
    hasCollection (addEntries db name n) name = true := by
  by_cases h : hasCollection db name = true
  · exact hasCollection_addEntries_mono db name n name h
  · unfold addEntries
    rw [if_neg (by simpa using h)]
    unfold hasCollection
    simp

/-- The fingerprint check accepts a source right after its collection was
written and its hash cached. -/
theorem check_after_write (db : ChromaDB) (hash : String → String) (pdf : String)
    (n : Nat) :
    check_existing_collection
      (setHash (addEntries db (collectionName pdf) n) (collectionName pdf) (hash pdf))
      hash pdf (collectionName pdf) = true := by
  unfold check_existing_collection
  rw [Bool.and_eq_true]
  constructor
  · exact hasCollection_addEntries_self db (collectionName pdf) n
  · rw [lookupStr_setHash_self]
    simp

/-- The fingerprint check for a different source survives a write for this
one. -/
theorem check_after_write_other (db : ChromaDB) (hash : String → String)
    (pdf pdf0 : String) (n : Nat)
    (hne : collectionName pdf0 ≠ collectionName pdf)
    (h : check_existing_collection db hash pdf0 (collectionName pdf0) = true) :
    check_existing_collection
      (setHash (addEntries db (collectionName pdf) n) (collectionName pdf) (hash pdf))
      hash pdf0 (collectionName pdf0) = true := by
  unfold check_existing_collection at h ⊢
  rw [Bool.and_eq_true] at h ⊢
  obtain ⟨h1, h2⟩ := h
  constructor
  · exact hasCollection_addEntries_mono db (collectionName pdf) n (collectionName pdf0) h1
  · rw [lookupStr_setHash_other _ _ _ _ hne, addEntries_hashCache]
    exact h2

/-- A skippable source leaves the step accumulator untouched (except the
per-run names list). -/
theorem buildStep_db_of_ok (hash : String → String) (extractN : String → Nat)
    (acc : BuildAcc) (pdf : String) (h : fpOK hash extractN acc.db pdf) :
    (buildStep hash extractN acc pdf).db = acc.db ∧
    (buildStep hash extractN acc pdf).added = acc.added := by
  unfold buildStep
  rcases h with h | h
  · rw [if_pos (by simpa using h)]
    exact ⟨rfl, rfl⟩
  · by_cases hc : check_existing_collection acc.db hash pdf (collectionName pdf) = true
    · rw [if_pos (by simpa using hc)]
      exact ⟨rfl, rfl⟩
    · rw [if_neg (by simpa using hc), if_pos h]
      exact ⟨rfl, rfl⟩

/-- A step for any source preserves skippability of every source. -/
theorem fpOK_preserved (hash : String → String) (extractN : String → Nat)
    (acc : BuildAcc) (pdf pdf0 : String) (h : fpOK hash extractN acc.db pdf0) :
    fpOK hash extractN (buildStep hash extractN acc pdf).db pdf0 := by
  rcases h with h | h
  · unfold buildStep
    by_cases hc : check_existing_collection acc.db hash pdf (collectionName pdf) = true
    · rw [if_pos (by simpa using hc)]
      exact Or.inl h
    · rw [if_neg (by simpa using hc)]
      by_cases h0 : extractN pdf = 0
      · rw [if_pos h0]
        exact Or.inl h
      · rw [if_neg h0]
        by_cases hname : collectionName pdf0 = collectionName pdf
        · have : pdf0 = pdf := collectionName_inj hname
          subst this
          exact Or.inl (check_after_write acc.db hash pdf0 (extractN pdf0))
        · exact Or.inl (check_after_write_other acc.db hash pdf pdf0 (extractN pdf) hname h)
  · exact Or.inr h

/-- A step for a source makes that source skippable. -/
theorem buildStep_establishes (hash : String → String) (extractN : String → Nat)
    (acc : BuildAcc) (pdf : String) :
    fpOK hash extractN (buildStep hash extractN acc pdf).db pdf := by
  unfold buildStep
  by_cases hc : check_existing_collection acc.db hash pdf (collectionName pdf) = true
  · rw [if_pos (by simpa using hc)]
    exact Or.inl hc
  · rw [if_neg (by simpa using hc)]
    by_cases h0 : extractN pdf = 0
    · rw [if_pos h0]
      exact Or.inr h0
    · rw [if_neg h0]
      exact Or.inl (check_after_write acc.db hash pdf (extractN pdf))

/-- The loop preserves skippability of any fixed source. -/
theorem fold_preserves_ok (hash : String → String) (extractN : String → Nat)
    (l : List String) (pdf0 : String) :
    ∀ acc : BuildAcc, fpOK hash extractN acc.db pdf0 →
      fpOK hash extractN (l.foldl (buildStep hash extractN) acc).db pdf0 := by
  induction l with
  | nil => intro acc h; exact h
  | cons p rest ih =>
    intro acc h
    exact ih _ (fpOK_preserved hash extractN acc p pdf0 h)

/-- After a full loop every processed source is skippable. -/
theorem fold_establishes_ok (hash : String → String) (extractN : String → Nat)
    (l : List String) :
    ∀ acc : BuildAcc, ∀ pdf ∈ l,
      fpOK hash extractN (l.foldl (buildStep hash extractN) acc).db pdf := by
  induction l with
  | nil => intro acc pdf h; cases h
  | cons p rest ih =>
    intro acc pdf hm
    rcases List.mem_cons.mp hm with rfl | hmem
    · exact fold_preserves_ok hash extractN rest pdf _
        (buildStep_establishes hash extractN acc pdf)
    · exact ih (buildStep hash extractN acc p) pdf hmem

/-- A loop over only-skippable sources changes neither the database nor the
added-entry count. -/
theorem fold_of_all_ok (hash : String → String) (extractN : String → Nat)
    (l : List String) :
    ∀ acc : BuildAcc, (∀ pdf ∈ l, fpOK hash extractN acc.db pdf) →
      (l.foldl (buildStep hash extractN) acc).db = acc.db ∧
      (l.foldl (buildStep hash extractN) acc).added = acc.added := by
  induction l with
  | nil => intro acc _; exact ⟨rfl, rfl⟩
  | cons p rest ih =>
    intro acc hall
    have hstep := buildStep_db_of_ok hash extractN acc p
      (hall p (List.mem_cons_self _ _))
    have hrest : ∀ pdf ∈ rest, fpOK hash extractN (buildStep hash extractN acc p).db pdf := by
      intro q hq
      rw [hstep.1]
      exact hall q (List.mem_cons_of_mem _ hq)
    have hres := ih (buildStep hash extractN acc p) hrest
    exact ⟨hres.1.trans hstep.1, hres.2.trans hstep.2⟩

/-- Claim C8 (amended, the part that holds).  The o2 ChromaDB builder is
idempotent: rerunning the collection loop over the same sources with
unchanged content hashes adds zero entries the second time and leaves the
stored collections and hash caches exactly as the first run left them —
every source either passes the fingerprint check after the first run or
extracts zero paragraphs, and in both cases the second-run step is a
no-op on the database. -/
theorem C8_o2_second_run_is_noop (hash : String → String) (extractN : String → Nat)
    (paths : List String) (db0 : ChromaDB) :
    (buildFold hash extractN paths (buildFold hash extractN paths db0).db).db =
      (buildFold hash extractN paths db0).db ∧
    (buildFold hash extractN paths (buildFold hash extractN paths db0).db).added = 0 := by
  have hall : ∀ pdf ∈ paths,
      fpOK hash extractN (buildFold hash extractN paths db0).db pdf :=
    fun pdf h => fold_establishes_ok hash extractN paths ⟨db0, 0, []⟩ pdf h
  have h2 := fold_of_all_ok hash extractN paths
    ⟨(buildFold hash extractN paths db0).db, 0, []⟩ (fun q hq => hall q hq)
  exact ⟨h2.1, h2.2⟩

/-- Claim C8 (counterexample).  The FAISS standards indexer keeps no
fingerprints: a second `index_standards` run over the unchanged source
starts from a freshly created empty index, so every vector it holds at the
end of the run was re-embedded and re-added during that run.  One
one-sentence source: the second run performs one add (not zero). -/
theorem C8_faiss_reindex_not_noop_cex :
    (index_standards_run 1 (index_standards_run 1 [] [fA]).diskMetadata
        [fA]).index.vectors.length ≠ 0 ∧
    (index_standards_run 1 (index_standards_run 1 [] [fA]).diskMetadata
        [fA]).index.vectors.length = 1 := by
  constructor
  · decide
  · rfl
